import Mathlib

/-
Verification of the CuBIDS validator module (cubids/validator.py).

The file embeds the two cores of the module:
  (a) the per-subject path partitioner (build_subject_paths), over an
      explicit file-system model, with the glob patterns used by the code
      translated into membership predicates on path strings; and
  (b) the validator-output normalization pipeline (parse_issue,
      parse_validator_output) over a JSON value model, with a fuel-based
      parser standing for json.loads and Python dynamic-typing failures
      (AttributeError, TypeError) made explicit in an Except monad.
-/

namespace Cubids

/-! ## JSON value model -/

/-- A decoded JSON value, as produced by json.loads: JSON null maps to
Python None, objects to dicts (insertion ordered, duplicate keys collapse
with last value winning), arrays to lists. Numbers are kept as their
integer part, which is all the claims depend on. -/
inductive JValue where
  | null
  | bool (b : Bool)
  | num (n : Int)
  | str (s : String)
  | arr (elems : List JValue)
  | obj (fields : List (String × JValue))

/-- First-match lookup in a decoded object field list (dict lookup). -/
def objGet : List (String × JValue) → String → Option JValue
  | [], _ => none
  | (k2, v) :: rest, k => if k2 == k then some v else objGet rest k

/-- Dict-style insertion used while decoding an object: an existing key
keeps its position and gets the new value, a new key is appended. -/
def objInsert : List (String × JValue) → String → JValue → List (String × JValue)
  | [], k, v => [(k, v)]
  | (k2, v2) :: rest, k, v =>
    if k2 == k then (k2, v) :: rest else (k2, v2) :: objInsert rest k v

/-! ## JSON parser (embedding of json.loads) -/

/-- JSON whitespace skipping. -/
def skipWs (l : List Char) : List Char :=
  l.dropWhile (fun c => c == ' ' || c == '\n' || c == '\t' || c == '\r')

/-- Decode one string-escape character. -/
def escChar (e : Char) : Option Char :=
  if e == '"' then some '"'
  else if e == '\\' then some '\\'
  else if e == '/' then some '/'
  else if e == 'n' then some '\n'
  else if e == 't' then some '\t'
  else if e == 'r' then some '\r'
  else if e == 'b' then some (Char.ofNat 8)
  else if e == 'f' then some (Char.ofNat 12)
  else none

/-- Parse the characters of a JSON string after the opening quote,
returning the decoded characters and the remaining input. -/
def parseStrChars : Nat → List Char → Except String (List Char × List Char)
  | 0, _ => .error "out of fuel"
  | _ + 1, [] => .error "Unterminated string"
  | fuel + 1, c :: rest =>
    if c == '"' then .ok ([], rest)
    else if c == '\\' then
      match rest with
      | [] => .error "Unterminated string"
      | e :: rest2 =>
        match escChar e with
        | some d => (parseStrChars fuel rest2).map (fun r => (d :: r.1, r.2))
        | none => .error "Invalid escape"
    else (parseStrChars fuel rest).map (fun r => (c :: r.1, r.2))

/-- Accumulate the value of a run of decimal digits. -/
def digitsVal (l : List Char) : Nat :=
  l.foldl (fun a c => a * 10 + (c.toNat - 48)) 0

/-- Parse a JSON number: sign, integer digits, optional fraction and
exponent (consumed; the stored value is the integer part). -/
def parseNum (l : List Char) : Except String (JValue × List Char) :=
  let (neg, l1) := match l with
    | '-' :: r => (true, r)
    | _ => (false, l)
  let ds := l1.takeWhile (fun c => c.isDigit)
  let rest0 := l1.dropWhile (fun c => c.isDigit)
  if ds.isEmpty then .error "Expecting value"
  else
    let rest1 := match rest0 with
      | '.' :: r =>
        if (r.takeWhile (fun c => c.isDigit)).isEmpty then rest0
        else r.dropWhile (fun c => c.isDigit)
      | _ => rest0
    let rest2 := match rest1 with
      | 'e' :: r => expTail r
      | 'E' :: r => expTail r
      | _ => rest1
    let n : Int := Int.ofNat (digitsVal ds)
    .ok (.num (if neg then -n else n), rest2)
where
  /-- Consume an exponent tail when well formed, else leave input as is
  (a malformed exponent then fails the trailing-garbage check). -/
  expTail (r : List Char) : List Char :=
    let r1 := match r with
      | '+' :: t => t
      | '-' :: t => t
      | _ => r
    if (r1.takeWhile (fun c => c.isDigit)).isEmpty then 'e' :: r
    else r1.dropWhile (fun c => c.isDigit)

mutual

/-- Parse one JSON value from the input. -/
def parseVal : Nat → List Char → Except String (JValue × List Char)
  | 0, _ => .error "out of fuel"
  | fuel + 1, l =>
    match skipWs l with
    | [] => .error "Expecting value"
    | c :: rest =>
      if c == 'n' then
        match rest with
        | 'u' :: 'l' :: 'l' :: r => .ok (.null, r)
        | _ => .error "Expecting value"
      else if c == 't' then
        match rest with
        | 'r' :: 'u' :: 'e' :: r => .ok (.bool true, r)
        | _ => .error "Expecting value"
      else if c == 'f' then
        match rest with
        | 'a' :: 'l' :: 's' :: 'e' :: r => .ok (.bool false, r)
        | _ => .error "Expecting value"
      else if c == '"' then
        (parseStrChars fuel rest).map (fun r => (.str (String.mk r.1), r.2))
      else if c == '[' then
        match skipWs rest with
        | ']' :: r => .ok (.arr [], r)
        | r0 =>
          match parseVal fuel r0 with
          | .error e => .error e
          | .ok (v, r1) => parseArrTail fuel [v] r1
      else if c == '{' then
        match skipWs rest with
        | '}' :: r => .ok (.obj [], r)
        | r0 => parseObjPair fuel [] r0
      else if c == '-' || c.isDigit then parseNum (c :: rest)
      else .error "Expecting value"

/-- Parse the rest of a JSON array after at least one element. -/
def parseArrTail : Nat → List JValue → List Char → Except String (JValue × List Char)
  | 0, _, _ => .error "out of fuel"
  | fuel + 1, acc, l =>
    match skipWs l with
    | ']' :: r => .ok (.arr acc.reverse, r)
    | ',' :: r =>
      match parseVal fuel r with
      | .error e => .error e
      | .ok (v, r1) => parseArrTail fuel (v :: acc) r1
    | _ => .error "Expecting comma"

/-- Parse one key-value pair of a JSON object, then its continuation. -/
def parseObjPair : Nat → List (String × JValue) → List Char → Except String (JValue × List Char)
  | 0, _, _ => .error "out of fuel"
  | fuel + 1, acc, l =>
    match skipWs l with
    | '"' :: r =>
      match parseStrChars fuel r with
      | .error e => .error e
      | .ok (ks, r1) =>
        match skipWs r1 with
        | ':' :: r2 =>
          match parseVal fuel r2 with
          | .error e => .error e
          | .ok (v, r3) =>
            let acc2 := objInsert acc (String.mk ks) v
            match skipWs r3 with
            | '}' :: r4 => .ok (.obj acc2, r4)
            | ',' :: r4 => parseObjPair fuel acc2 r4
            | _ => .error "Expecting comma"
        | _ => .error "Expecting colon"
    | _ => .error "Expecting property name"

end

/-- Embedding of json.loads: parse one value and require only whitespace
after it, failing (JSONDecodeError) otherwise. -/
def json_loads (s : String) : Except String JValue :=
  match parseVal (s.length + 1) s.data with
  | .error e => .error e
  | .ok (v, rest) =>
    if (skipWs rest).isEmpty then .ok v else .error "Extra data"

/-! ## Python dynamic-typing layer -/

/-- The uncaught Python exceptions the pipeline can raise. -/
inductive PyExc where
  | attributeError
  | typeError

/-- Embedding of value.get(key, default): a dict lookup with default;
any non-dict receiver raises AttributeError. -/
def pyGet (v : JValue) (k : String) (dflt : JValue) : Except PyExc JValue :=
  match v with
  | .obj l => .ok ((objGet l k).getD dflt)
  | _ => .error .attributeError

/-- Embedding of Python iteration: lists yield elements, strings yield
one-character strings, dicts yield their keys; anything else raises
TypeError. -/
def pyIter (v : JValue) : Except PyExc (List JValue) :=
  match v with
  | .arr l => .ok l
  | .str s => .ok (s.data.map (fun c => .str (String.mk [c])))
  | .obj l => .ok (l.map (fun p => .str p.1))
  | _ => .error .typeError

/-- Check a list of iterated values are all strings, extracting them;
a non-string element raises TypeError (as str.join does). -/
def pyStrList : List JValue → Except PyExc (List String)
  | [] => .ok []
  | .str s :: rest => (pyStrList rest).map (fun l => s :: l)
  | _ :: _ => .error .typeError

/-- Embedding of the Python expression sep.join(v) with sep = ", ". -/
def joinComma (v : JValue) : Except PyExc String :=
  match pyIter v with
  | .error e => .error e
  | .ok items =>
    match pyStrList items with
    | .error e => .error e
    | .ok strs => .ok (String.intercalate ", " strs)

/-! ## Issue normalization (embedding of parse_issue) -/

/-- The fixed five-field record parse_issue builds: the dict literal with
keys code, severity, location, affects, rule in that order. The affects
field is the joined string; the others hold whatever value the raw issue
mapping carried. -/
structure ParsedIssue where
  code : JValue
  severity : JValue
  location : JValue
  affects : String
  rule : JValue

/-- Embedding of parse_issue: default-on-missing lookups for the four
plain fields, and a join of the affects sequence (default empty list).
The only failure paths are Python dynamic-typing errors: a non-dict
issue (AttributeError) or a non-joinable affects value (TypeError). -/
def parse_issue (issue : JValue) : Except PyExc ParsedIssue :=
  match pyGet issue "code" (.str "") with
  | .error e => .error e
  | .ok code =>
    match pyGet issue "severity" (.str "") with
    | .error e => .error e
    | .ok severity =>
      match pyGet issue "location" (.str "") with
      | .error e => .error e
      | .ok location =>
        match pyGet issue "affects" (.arr []) with
        | .error e => .error e
        | .ok affectsRaw =>
          match joinComma affectsRaw with
          | .error e => .error e
          | .ok affects =>
            match pyGet issue "rule" (.str "") with
            | .error e => .error e
            | .ok rule => .ok ⟨code, severity, location, affects, rule⟩

/-! ## Report flattening (embedding of parse_validator_output) -/

/-- The pandas DataFrame as the pipeline uses it: a column list and a row
list. pd.DataFrame() has no columns and no rows. -/
structure DataFrame where
  columns : List String
  rows : List ParsedIssue

/-- The empty frame df = pd.DataFrame(). -/
def emptyDF : DataFrame := ⟨[], []⟩

/-- Column order of pd.DataFrame([parsed]): the insertion order of the
dict literal built by parse_issue. -/
def issueColumns : List String := ["code", "severity", "location", "affects", "rule"]

/-- Embedding of pd.concat([df, pd.DataFrame([parsed])], ignore_index=True):
the result carries the five issue columns and appends the row. -/
def concatRow (df : DataFrame) (p : ParsedIssue) : DataFrame :=
  ⟨issueColumns, df.rows ++ [p]⟩

/-- Python equality between a decoded value and a string literal. -/
def jEqStr (v : JValue) (s : String) : Bool :=
  match v with
  | .str t => t == s
  | _ => false

/-- Embedding of the for-loop over issues_list: look up each entry
severity (raising AttributeError on a non-dict entry), keep entries whose
severity equals "error" or "warning", concatenating their parsed rows. -/
def processIssues : List JValue → DataFrame → Except PyExc DataFrame
  | [], df => .ok df
  | issue :: rest, df =>
    match pyGet issue "severity" .null with
    | .error e => .error e
    | .ok sev =>
      if jEqStr sev "error" then
        match parse_issue issue with
        | .error e => .error e
        | .ok parsed => processIssues rest (concatRow df parsed)
      else if jEqStr sev "warning" then
        match parse_issue issue with
        | .error e => .error e
        | .ok parsed => processIssues rest (concatRow df parsed)
      else processIssues rest df

/-- Navigation to the issue list inside a decoded report:
data.get("issues", {}) then .get("issues", []) then iteration. -/
def reportIssues (data : JValue) : Except PyExc (List JValue) :=
  match pyGet data "issues" (.obj []) with
  | .error e => .error e
  | .ok issues =>
    match pyGet issues "issues" (.arr []) with
    | .error e => .error e
    | .ok issuesList => pyIter issuesList

/-- Body of the try block after decoding: navigate to the issue list and
fold the filtered issues into a frame starting from pd.DataFrame(). -/
def process_report (data : JValue) : Except PyExc DataFrame :=
  match reportIssues data with
  | .error e => .error e
  | .ok l => processIssues l emptyDF

/-- Embedding of parse_validator_output: json.loads inside a try block
whose except clause catches only JSONDecodeError, prints, and falls off
the end of the function, returning None. Any Python error raised after a
successful decode propagates uncaught. -/
def parse_validator_output (output : String) : Except PyExc (Option DataFrame) :=
  match json_loads output with
  | .error _ => .ok none
  | .ok data =>
    match process_report data with
    | .error e => .error e
    | .ok df => .ok (some df)

/-! ## Field catalog (embedding of get_val_dictionary) -/

/-- Embedding of get_val_dictionary: the fixed constant dict of
column-name to Description entries returned by the function. -/
def get_val_dictionary : List (String × List (String × String)) :=
  [("location", [("Description", "File with the validation issue.")]),
   ("code", [("Description", "Code of the validation issue.")]),
   ("subCode", [("Description", "Subcode providing additional issue details.")]),
   ("severity", [("Description", "Severity of the issue (e.g., warning, error).")]),
   ("rule", [("Description", "Validation rule that triggered the issue.")])]

/-! ## File-system model and path partitioning -/

/-- The directory tree build_subject_paths scans: the regular files and
the directories, each as a full path string using the / separator and no
trailing separator. The list orders stand for the enumeration order the
host returns, which the code does not sort. -/
structure FileSystem where
  files : List String
  dirs : List String

/-- Whether the string ends with the / separator (str.endswith). -/
def endsSlash (s : String) : Bool := s.data.getLast? == some '/'

/-- The normalization at the top of build_subject_paths: append a
trailing separator unless one is already there. -/
def normDir (s : String) : String := if endsSlash s then s else s ++ "/"

/-- Leading-segment test on character lists. -/
def lPre : List Char → List Char → Bool
  | [], _ => true
  | _ :: _, [] => false
  | a :: as, b :: bs => a == b && lPre as bs

/-- Membership in glob(bd + "*") restricted to regular files: a direct
child of bd (no separator in the remaining name, nonempty) whose name
does not begin with a dot, which glob never matches. -/
def isRootChild (bd p : String) : Bool :=
  lPre bd.data p.data &&
  (let rest := p.data.drop bd.data.length
   !rest.isEmpty && rest.all (fun c => c != '/') && !(rest.head? == some '.'))

/-- Membership in glob(bd + "sub-*/"): an immediate child directory of
bd whose name starts with "sub-". -/
def isSubjectDir (bd d : String) : Bool :=
  lPre bd.data d.data &&
  (let rest := d.data.drop bd.data.length
   lPre ['s', 'u', 'b', '-'] rest && rest.all (fun c => c != '/'))

/-- Rejects paths with a component starting with a dot after the scanned
root, which recursive glob never matches. -/
def noDotComponent : List Char → Bool
  | [] => true
  | '/' :: '.' :: _ => false
  | _ :: rest => noDotComponent rest

/-- Membership in glob(sub + "**", recursive=True) restricted to regular
files: any path below the subject directory sub (which carries its
trailing separator), at arbitrary depth, with no hidden component. -/
def isUnderSubject (sub p : String) : Bool :=
  lPre sub.data p.data &&
  (let rest := p.data.drop sub.data.length
   !rest.isEmpty && !(rest.head? == some '.') && noDotComponent rest)

/-- Embedding of pathlib.PurePath(sub).name: drop trailing separators,
then keep the characters after the last remaining separator. -/
def subLabel (s : String) : String :=
  String.mk (((s.data.reverse.dropWhile (fun c => c == '/')).takeWhile (fun c => c != '/')).reverse)

/-- The last path segment of a separator-free-tail path: the characters
after the last separator. Stated independently of subLabel to express
what a base name is. -/
def lastSegment (s : String) : String :=
  String.mk ((s.data.reverse.takeWhile (fun c => c != '/')).reverse)

/-- Step 1 of build_subject_paths: the root-level regular files,
[x for x in glob.glob(bids_dir + "*") if os.path.isfile(x)]. -/
def rootFilesOf (fs : FileSystem) (bd : String) : List String :=
  fs.files.filter (fun p => isRootChild bd p)

/-- Step 2 of build_subject_paths: the matched subject directories,
glob.glob(bids_dir + "sub-*/"), each carrying its trailing separator. -/
def subjectDirsOf (fs : FileSystem) (bd : String) : List String :=
  (fs.dirs.filter (fun d => isSubjectDir bd d)).map (fun d => d ++ "/")

/-- Step 3 of build_subject_paths: the files below one subject,
[x for x in glob.glob(sub + "**", recursive=True) if os.path.isfile(x)]. -/
def subjectFilesOf (fs : FileSystem) (sub : String) : List String :=
  fs.files.filter (fun p => isUnderSubject sub p)

/-- Embedding of build_subject_paths: normalize the root, collect the
root-level files, match the subject directories, raise ValueError with
the searched pattern when none match, and otherwise build the manifest
keyed by PurePath name with the root files appended to each file list.
The association list stands for the insertion-ordered dict. -/
def build_subject_paths (fs : FileSystem) (bids_dir : String) :
    Except String (List (String × List String)) :=
  if (subjectDirsOf fs (normDir bids_dir)).length < 1 then
    .error ("Couldn\x27t find any subjects in the specified directory:\n" ++
      (normDir bids_dir ++ "sub-*/"))
  else
    .ok ((subjectDirsOf fs (normDir bids_dir)).map
      (fun sub => (subLabel sub, subjectFilesOf fs sub ++ rootFilesOf fs (normDir bids_dir))))

/-! ## Derived characterizations used to state the claims -/

/-- Whether a decoded value is a mapping. -/
def isObjB : JValue → Bool
  | .obj _ => true
  | _ => false

/-- Whether a decoded value is a string. -/
def isStrB : JValue → Bool
  | .str _ => true
  | _ => false

/-- Whether an Except computation succeeded. -/
def isOkB {ε α : Type} : Except ε α → Bool
  | .ok _ => true
  | .error _ => false

/-- The severity value of an issue mapping, None when absent. -/
def sevOf : JValue → JValue
  | .obj l => (objGet l "severity").getD .null
  | _ => .null

/-- The retention test of the loop: severity equals "error" or equals
"warning". -/
def keep (i : JValue) : Bool :=
  jEqStr (sevOf i) "error" || jEqStr (sevOf i) "warning"

/-- The parsed record of an issue whose parse succeeds, with a dummy
record on the failure paths. -/
def parseIssueD (i : JValue) : ParsedIssue :=
  match parse_issue i with
  | .ok p => p
  | .error _ => ⟨.null, .null, .null, "", .null⟩

/-- String value of a decoded value, empty for non-strings. -/
def strOrEmpty : JValue → String
  | .str s => s
  | _ => ""

/-- The default-on-missing lookup of parse_issue for the plain fields. -/
def getOrEmptyStr (l : List (String × JValue)) (k : String) : JValue :=
  (objGet l k).getD (.str "")

/-- The RawIssue typing of the affects field: absent, or a sequence of
strings. -/
def affectsWellTyped (l : List (String × JValue)) : Bool :=
  match objGet l "affects" with
  | none => true
  | some (.arr xs) => xs.all isStrB
  | some _ => false

/-- The string sequence carried by a well-typed affects field. -/
def affectsStrings (l : List (String × JValue)) : List String :=
  match objGet l "affects" with
  | some (.arr xs) => xs.map strOrEmpty
  | _ => []

/-- Generic first-match association lookup for the field catalog. -/
def alistGet {α : Type} : List (String × α) → String → Option α
  | [], _ => none
  | (k2, v) :: rest, k => if k2 == k then some v else alistGet rest k

/-- The characters of a path after a scanned root. -/
def restAfter (bd p : String) : List Char := p.data.drop bd.data.length

/-! ## Concrete inputs used by the witnesses -/

/-- A small dataset tree with two subjects, two root-level files, a
non-subject directory, and hidden entries glob never matches. -/
def demoFS : FileSystem :=
  { files := ["/data/dataset_description.json", "/data/README",
              "/data/sub-01/anat/T1.nii", "/data/sub-01/func.json",
              "/data/sub-02/a.txt", "/data/other/x.txt", "/data/.hidden",
              "/data/sub-01/.git/x"],
    dirs := ["/data/sub-01", "/data/sub-01/anat", "/data/sub-02", "/data/other",
             "/data/sub-01/.git"] }

/-- The manifest build_subject_paths produces on demoFS at root /data. -/
def demoManifest : List (String × List String) :=
  [("sub-01", ["/data/sub-01/anat/T1.nii", "/data/sub-01/func.json",
               "/data/dataset_description.json", "/data/README"]),
   ("sub-02", ["/data/sub-02/a.txt", "/data/dataset_description.json", "/data/README"])]

/-- A dataset tree with no entries at all, so no subject directories. -/
def emptyFS : FileSystem := { files := [], dirs := [] }

/-- The four-issue list with severities error, warning, info, error. -/
def demoIssueList : List JValue :=
  [JValue.obj [("severity", JValue.str "error")],
   JValue.obj [("severity", JValue.str "warning")],
   JValue.obj [("severity", JValue.str "info")],
   JValue.obj [("severity", JValue.str "error")]]

/-- A decoded report carrying demoIssueList under the two issues keys. -/
def demoReport : JValue :=
  JValue.obj [("issues", JValue.obj [("issues", JValue.arr demoIssueList)])]

/-- A decoded report whose single issue has severity info only. -/
def demoInfoReport : JValue :=
  JValue.obj [("issues", JValue.obj
    [("issues", JValue.arr [JValue.obj [("severity", JValue.str "info")]])])]

/-- A raw issue mapping whose affects field is the sequence a, b, c. -/
def demoAffects : List (String × JValue) :=
  [("affects", JValue.arr [JValue.str "a", JValue.str "b", JValue.str "c"])]

/-! ## Theorems -/

/-- Claim C1. The claim says a JSON decode failure raises
MalformedReportError and never yields a null result. The code instead
catches the decode error, prints it, and returns None. At the failing
input consisting of a lone opening brace, the decode step fails, and the
function returns None without raising: the code contradicts the claim,
whose behaviour the spec states as the intent. -/
theorem claim_malformed_json_returns_none :
    (∃ e, json_loads "\x7b" = Except.error e) ∧
    parse_validator_output "\x7b" = Except.ok none :=
  ⟨⟨"Expecting property name", rfl⟩, rfl⟩

/-- Claim C6, counterexample. The claim says a successfully decoded
payload never makes the flattener fail, even with wrong types at the
issue level. On the valid JSON payload whose issue list holds the number
42, the severity lookup is attempted on a non-mapping and the flattener
raises an uncaught AttributeError. -/
theorem claim_wrong_type_issue_raises :
    parse_validator_output "\x7b\"issues\": \x7b\"issues\": [42]\x7d\x7d" =
      Except.error PyExc.attributeError := rfl

/-- Claim C6, amended. Within a successfully decoded payload, a missing
issues key at either nesting level is handled by defaulting and yields
an empty table; wrong types are not handled. -/
theorem claim_missing_keys_default (l : List (String × JValue)) :
    (objGet l "issues" = none → process_report (JValue.obj l) = .ok emptyDF) ∧
    (∀ l2, objGet l "issues" = some (JValue.obj l2) → objGet l2 "issues" = none →
      process_report (JValue.obj l) = .ok emptyDF) := by
  constructor
  · intro h
    simp [process_report, reportIssues, pyGet, h, pyIter, processIssues, objGet]
  · intro l2 h h2
    simp [process_report, reportIssues, pyGet, h, h2, pyIter, processIssues, objGet]

/-- Witness for the amended claim C6 at the empty payload. -/
theorem claim_missing_keys_default_witness :
    process_report (JValue.obj []) = Except.ok emptyDF :=
  (claim_missing_keys_default []).1 rfl

/-- Claim C2. When no immediate child directory matches sub-*, the
partitioner fails with the ValueError carrying the searched pattern (the
NoSubjectsFoundError of the spec), and a returned manifest is never
empty. -/
theorem claim_no_subjects_raises (fs : FileSystem) (bids_dir : String) :
    (subjectDirsOf fs (normDir bids_dir) = [] →
      build_subject_paths fs bids_dir =
        .error ("Couldn\x27t find any subjects in the specified directory:\n" ++
          (normDir bids_dir ++ "sub-*/"))) ∧
    (∀ m, build_subject_paths fs bids_dir = .ok m → m ≠ []) := by
  constructor
  · intro h
    simp [build_subject_paths, h]
  · intro m hm
    simp only [build_subject_paths] at hm
    split at hm
    · exact absurd hm (by simp)
    · rename_i hc
      injection hm with hm
      intro hnil
      rw [hnil, List.map_eq_nil_iff] at hm
      rw [hm] at hc
      exact hc (by simp)

/-- Witness for claim C2 on the empty tree. -/
theorem claim_no_subjects_raises_witness :
    build_subject_paths emptyFS "/data" =
      Except.error "Couldn\x27t find any subjects in the specified directory:\n/data/sub-*/" :=
  (claim_no_subjects_raises emptyFS "/data").1 rfl

/-- Claim C5. Every file list of a returned manifest is the recursive
enumeration of one matched subject directory with the root-level files
appended after it. -/
theorem claim_root_files_appended (fs : FileSystem) (bids_dir : String)
    (m : List (String × List String)) (hm : build_subject_paths fs bids_dir = .ok m) :
    ∀ e ∈ m, ∃ sub, sub ∈ subjectDirsOf fs (normDir bids_dir) ∧
      e.2 = subjectFilesOf fs sub ++ rootFilesOf fs (normDir bids_dir) := by
  intro e he
  simp only [build_subject_paths] at hm
  split at hm
  · exact absurd hm (by simp)
  · injection hm with hm
    rw [← hm] at he
    rcases List.mem_map.mp he with ⟨sub, hsub, rfl⟩
    exact ⟨sub, hsub, rfl⟩

/-- Witness for claim C5 on the demo tree: the sub-01 file list
decomposes into its subject files followed by the two root files. -/
theorem claim_root_files_appended_witness :
    ∃ sub, sub ∈ subjectDirsOf demoFS (normDir "/data") ∧
      (["/data/sub-01/anat/T1.nii", "/data/sub-01/func.json",
        "/data/dataset_description.json", "/data/README"] : List String) =
        subjectFilesOf demoFS sub ++ rootFilesOf demoFS (normDir "/data") :=
  claim_root_files_appended demoFS "/data" demoManifest rfl
    ("sub-01", ["/data/sub-01/anat/T1.nii", "/data/sub-01/func.json",
      "/data/dataset_description.json", "/data/README"]) (by simp [demoManifest])

/-- Claim C10. The manifest is the same whether or not the input root
path carries a trailing separator: the initial normalization appends one
exactly when it is missing. -/
theorem claim_trailing_separator_invariant (fs : FileSystem) (p : String)
    (h : endsSlash p = false) :
    build_subject_paths fs p = build_subject_paths fs (p ++ "/") := by
  have hd : (p ++ "/").data = p.data ++ ['/'] := by cases p; rfl
  have h2 : endsSlash (p ++ "/") = true := by
    unfold endsSlash
    rw [hd]
    simp
  have hn : normDir p = normDir (p ++ "/") := by
    simp [normDir, h, h2]
  simp only [build_subject_paths, hn]

/-- Witness for claim C10 on the demo tree at root /data. -/
theorem claim_trailing_separator_invariant_witness :
    build_subject_paths demoFS "/data" = build_subject_paths demoFS "/data/" :=
  claim_trailing_separator_invariant demoFS "/data" rfl

/-- Claim C8. Every column of the flattened table other than affects
resolves in the fixed catalog to a non-empty description, the catalog
also carries a subCode entry, and that entry corresponds to no output
column. -/
theorem claim_field_catalog :
    (["location", "code", "severity", "rule"].all (fun k =>
        match alistGet get_val_dictionary k with
        | some entry =>
          match alistGet entry "Description" with
          | some d => !(d == "")
          | none => false
        | none => false)) = true
    ∧ (alistGet get_val_dictionary "subCode").isSome = true
    ∧ "subCode" ∉ issueColumns :=
  ⟨rfl, rfl, by decide⟩

/-- On a mapping entry, the severity lookup of the loop succeeds and
returns the severity value. -/
lemma pyGet_severity_of_obj (i : JValue) (h : isObjB i = true) :
    pyGet i "severity" JValue.null = .ok (sevOf i) := by
  cases i <;> first | rfl | simp [isObjB] at h

/-- A parse whose success is assumed returns its parsed record. -/
lemma parse_issue_eq_of_isOk (i : JValue) (h : isOkB (parse_issue i) = true) :
    parse_issue i = .ok (parseIssueD i) := by
  unfold parseIssueD
  cases hp : parse_issue i
  · rw [hp] at h
    simp [isOkB] at h
  · rfl

/-- Full characterization of the issue loop: on a list of mapping
entries whose retained members parse, it returns the start frame
extended by one parsed row per retained issue, in order, and takes the
five issue columns exactly when at least one row was concatenated. -/
lemma processIssues_eq (l : List JValue) : ∀ df : DataFrame,
    l.all isObjB = true →
    (l.filter keep).all (fun i => isOkB (parse_issue i)) = true →
    processIssues l df =
      .ok ⟨if (l.filter keep).isEmpty then df.columns else issueColumns,
           df.rows ++ (l.filter keep).map parseIssueD⟩ := by
  induction l with
  | nil =>
    intro df _ _
    simp [processIssues]
  | cons i rest ih =>
    intro df hobj hok
    rw [List.all_cons, Bool.and_eq_true] at hobj
    obtain ⟨hi, hrest⟩ := hobj
    have hsev := pyGet_severity_of_obj i hi
    have hkeep : keep i = (jEqStr (sevOf i) "error" || jEqStr (sevOf i) "warning") := rfl
    simp only [processIssues, hsev]
    by_cases he : jEqStr (sevOf i) "error" = true
    · have hk : keep i = true := by rw [hkeep, he]; rfl
      rw [List.filter_cons_of_pos hk] at hok ⊢
      rw [List.all_cons, Bool.and_eq_true] at hok
      obtain ⟨hoki, hokrest⟩ := hok
      rw [he, if_pos rfl, parse_issue_eq_of_isOk i hoki]
      show processIssues rest (concatRow df (parseIssueD i)) = _
      rw [ih (concatRow df (parseIssueD i)) hrest hokrest]
      simp [concatRow]
    · by_cases hw : jEqStr (sevOf i) "warning" = true
      · have hk : keep i = true := by rw [hkeep, hw]; simp
        rw [List.filter_cons_of_pos hk] at hok ⊢
        rw [List.all_cons, Bool.and_eq_true] at hok
        obtain ⟨hoki, hokrest⟩ := hok
        rw [Bool.of_not_eq_true he] at *
        simp only [Bool.false_eq_true, if_false]
        rw [hw, if_pos rfl, parse_issue_eq_of_isOk i hoki]
        show processIssues rest (concatRow df (parseIssueD i)) = _
        rw [ih (concatRow df (parseIssueD i)) hrest hokrest]
        simp [concatRow]
      · have hk : keep i = false := by
          rw [hkeep, Bool.of_not_eq_true he, Bool.of_not_eq_true hw]
          rfl
        rw [List.filter_cons_of_neg (by rw [hk]; exact Bool.false_ne_true)] at hok ⊢
        rw [Bool.of_not_eq_true he, Bool.of_not_eq_true hw]
        simp only [Bool.false_eq_true, if_false]
        exact ih df hrest hok

/-- Claim C3. On a successfully decoded report whose issue entries are
mappings and whose retained entries parse, the flattener produces
exactly one normalized row per entry with severity equal to error or
warning, in the original relative order, dropping every other entry. -/
theorem claim_filter_severity_rows (data : JValue) (l : List JValue)
    (h1 : reportIssues data = .ok l)
    (h2 : l.all isObjB = true)
    (h3 : (l.filter keep).all (fun i => isOkB (parse_issue i)) = true) :
    process_report data =
      .ok ⟨if (l.filter keep).isEmpty then [] else issueColumns,
           (l.filter keep).map parseIssueD⟩ := by
  simp only [process_report, h1]
  rw [processIssues_eq l emptyDF h2 h3]
  simp [emptyDF]

/-- Witness for claim C3 on the report with severities error, warning,
info, error: three rows, in order, the info entry dropped. -/
theorem claim_filter_severity_rows_witness :
    process_report demoReport =
      Except.ok ⟨issueColumns,
        [⟨JValue.str "", JValue.str "error", JValue.str "", "", JValue.str ""⟩,
         ⟨JValue.str "", JValue.str "warning", JValue.str "", "", JValue.str ""⟩,
         ⟨JValue.str "", JValue.str "error", JValue.str "", "", JValue.str ""⟩]⟩ := by
  rw [claim_filter_severity_rows demoReport demoIssueList rfl rfl rfl]
  rfl

/-- Claim C9. On a successfully decoded report of mapping entries with
zero retained issues the flattener returns the frame pd.DataFrame(),
which has no columns at all; the five issue columns appear exactly when
at least one issue is retained. -/
theorem claim_empty_table_no_columns (data : JValue) (l : List JValue)
    (h1 : reportIssues data = .ok l) (h2 : l.all isObjB = true) :
    ((l.filter keep).isEmpty = true → process_report data = .ok emptyDF) ∧
    ((l.filter keep).isEmpty = false →
      (l.filter keep).all (fun i => isOkB (parse_issue i)) = true →
      ∃ rows, process_report data = .ok ⟨issueColumns, rows⟩ ∧ rows ≠ []) := by
  constructor
  · intro hemp
    have hnil : l.filter keep = [] := List.isEmpty_iff.mp hemp
    have h3 : (l.filter keep).all (fun i => isOkB (parse_issue i)) = true := by
      rw [hnil]
      rfl
    simp only [process_report, h1]
    rw [processIssues_eq l emptyDF h2 h3, hemp]
    simp [emptyDF, hnil]
  · intro hne h3
    simp only [process_report, h1]
    rw [processIssues_eq l emptyDF h2 h3, hne]
    refine ⟨(l.filter keep).map parseIssueD, by simp [emptyDF], ?_⟩
    have : l.filter keep ≠ [] := by
      intro hnil
      rw [hnil] at hne
      exact absurd hne (by simp)
    simpa using this

/-- Witness for claim C9 on the single-issue info report: the result is
the empty frame with no columns. -/
theorem claim_empty_table_no_columns_witness :
    process_report demoInfoReport = Except.ok emptyDF :=
  (claim_empty_table_no_columns demoInfoReport
    [JValue.obj [("severity", JValue.str "info")]] rfl rfl).1 rfl

/-- On a list of string values, the join extraction succeeds with those
strings. -/
lemma pyStrList_of_all_str (xs : List JValue) (h : xs.all isStrB = true) :
    pyStrList xs = .ok (xs.map strOrEmpty) := by
  induction xs with
  | nil => rfl
  | cons x rest ih =>
    rw [List.all_cons, Bool.and_eq_true] at h
    obtain ⟨hx, hrest⟩ := h
    cases x with
    | str s => simp [pyStrList, ih hrest, strOrEmpty, Except.map]
    | null => simp [isStrB] at hx
    | bool b => simp [isStrB] at hx
    | num n => simp [isStrB] at hx
    | arr es => simp [isStrB] at hx
    | obj fields => simp [isStrB] at hx

/-- Claim C4. On any raw issue mapping whose affects field is absent or
a sequence of strings, parse_issue succeeds with exactly one five-field
record: the four plain fields hold the looked-up value or the empty
string when absent, and affects holds the sequence joined with a comma
and space, the empty string when absent. -/
theorem claim_parse_issue_fields (l : List (String × JValue))
    (h : affectsWellTyped l = true) :
    parse_issue (JValue.obj l) =
      .ok ⟨getOrEmptyStr l "code", getOrEmptyStr l "severity", getOrEmptyStr l "location",
           String.intercalate ", " (affectsStrings l), getOrEmptyStr l "rule"⟩ := by
  simp only [parse_issue, pyGet, getOrEmptyStr]
  unfold affectsWellTyped at h
  unfold affectsStrings
  cases ha : objGet l "affects" with
  | none =>
    simp [joinComma, pyIter, pyStrList]
  | some v =>
    rw [ha] at h
    cases v with
    | arr xs =>
      have hxs : xs.all isStrB = true := h
      simp [joinComma, pyIter, pyStrList_of_all_str xs hxs]
    | null => simp at h
    | bool b => simp at h
    | num n => simp at h
    | str s => simp at h
    | obj fields => simp at h

/-- Witness for claim C4 on the issue whose affects sequence is a, b, c:
the joined field is the string a, b, c and the plain fields default to
the empty string. -/
theorem claim_parse_issue_fields_witness :
    parse_issue (JValue.obj demoAffects) =
      Except.ok ⟨JValue.str "", JValue.str "", JValue.str "", "a, b, c", JValue.str ""⟩ := by
  rw [claim_parse_issue_fields demoAffects rfl]
  rfl

/-- A true leading-segment test splits the longer list. -/
lemma lPre_append (a : List Char) : ∀ b : List Char, lPre a b = true →
    b = a ++ b.drop a.length := by
  induction a with
  | nil => intro b _; simp
  | cons x xs ih =>
    intro b h
    cases b with
    | nil => exact absurd h (by simp [lPre])
    | cons y ys =>
      simp only [lPre, Bool.and_eq_true, beq_iff_eq] at h
      obtain ⟨h1, h2⟩ := h
      simp only [List.length_cons, List.drop_succ_cons, List.cons_append]
      rw [h1, ← ih ys h2]

/-- takeWhile collects exactly a leading block when the element right
after it fails the test. -/
lemma takeWhile_append_stop (p : Char → Bool) (l1 l2 : List Char)
    (h1 : ∀ c ∈ l1, p c = true) (h2 : ∀ x, l2.head? = some x → p x = false) :
    (l1 ++ l2).takeWhile p = l1 := by
  induction l1 with
  | nil =>
    cases l2 with
    | nil => rfl
    | cons y ys => simp [List.takeWhile_cons, h2 y rfl]
  | cons x xs ih =>
    have hx := h1 x (by simp)
    have ht := ih (fun c hc => h1 c (by simp [hc]))
    simp [List.takeWhile_cons, hx, ht]

/-- dropWhile keeps the whole list when its first element fails the
test. -/
lemma dropWhile_of_head_false (p : Char → Bool) (l : List Char)
    (h : ∀ x, l.head? = some x → p x = false) :
    l.dropWhile p = l := by
  cases l with
  | nil => rfl
  | cons y ys => simp [List.dropWhile_cons, h y rfl]

/-- dropWhile steps over a first element that satisfies the test. -/
lemma dropWhile_cons_true (p : Char → Bool) (a : Char) (l : List Char) (h : p a = true) :
    (a :: l).dropWhile p = l.dropWhile p := by
  simp [List.dropWhile_cons, h]

/-- The normalized root always carries a trailing separator. -/
lemma endsSlash_normDir (s : String) : endsSlash (normDir s) = true := by
  unfold normDir
  by_cases h : endsSlash s = true
  · rw [if_pos h]
    exact h
  · rw [if_neg h]
    have hd : (s ++ "/").data = s.data ++ ['/'] := by cases s; rfl
    unfold endsSlash
    rw [hd]
    simp

/-- Characterization of the manifest key for one matched subject
directory: PurePath name on the trailing-separator path gives the
child-name remainder, which is the last path segment of the directory
and differs from the enumerated full path. -/
lemma subLabel_of_subjectDir (bd d : String) (hbd : endsSlash bd = true)
    (hd : isSubjectDir bd d = true) :
    subLabel (d ++ "/") = String.mk (restAfter bd d) ∧
    subLabel (d ++ "/") = lastSegment d ∧
    subLabel (d ++ "/") ≠ d ++ "/" := by
  simp only [isSubjectDir, Bool.and_eq_true] at hd
  obtain ⟨hpre, hsub, hnos⟩ := hd
  set rest := d.data.drop bd.data.length with hrest
  have hsplit : d.data = bd.data ++ rest := lPre_append bd.data d.data hpre
  have hrne : rest ≠ [] := by
    intro hnil
    rw [hnil] at hsub
    exact absurd hsub (by simp [lPre])
  have hnoslash : ∀ c ∈ rest, (c != '/') = true := List.all_eq_true.mp hnos
  have hnoslash2 : ∀ c ∈ rest.reverse, (c != '/') = true := by
    intro c hc
    exact hnoslash c (List.mem_reverse.mp hc)
  have hbdrev : bd.data.reverse.head? = some '/' := by
    rw [List.head?_reverse]
    simpa [endsSlash] using hbd
  have hrevhead : ∀ x, rest.reverse.head? = some x → (x == '/') = false := by
    intro x hx
    have hmem : x ∈ rest.reverse := by
      cases hr : rest.reverse with
      | nil => rw [hr] at hx; exact absurd hx (by simp)
      | cons a t =>
        rw [hr] at hx
        simp only [List.head?_cons, Option.some.injEq] at hx
        rw [hx]
        exact List.mem_cons_self x t
    have := hnoslash2 x hmem
    simpa using this
  have hstop : ∀ x, bd.data.reverse.head? = some x → (x != '/') = false := by
    intro x hx
    rw [hbdrev] at hx
    simp only [Option.some.injEq] at hx
    rw [← hx]
    simp
  have hdslash : (d ++ "/").data = bd.data ++ rest ++ ['/'] := by
    have : (d ++ "/").data = d.data ++ ['/'] := by cases d; rfl
    rw [this, hsplit]
  have hrevne : ¬ rest.reverse.isEmpty = true := by
    simpa using hrne
  have hkey : subLabel (d ++ "/") = String.mk rest := by
    unfold subLabel
    rw [hdslash]
    have hrev : (bd.data ++ rest ++ ['/']).reverse = '/' :: (rest.reverse ++ bd.data.reverse) := by
      simp [List.reverse_append]
    rw [hrev, dropWhile_cons_true _ _ _ (by simp), List.dropWhile_append,
      dropWhile_of_head_false _ _ hrevhead, if_neg hrevne,
      takeWhile_append_stop _ _ _ (fun c hc => hnoslash2 c hc) hstop,
      List.reverse_reverse]
  refine ⟨hkey, ?_, ?_⟩
  · rw [hkey]
    unfold lastSegment
    rw [hsplit]
    have hrev : (bd.data ++ rest).reverse = rest.reverse ++ bd.data.reverse := by
      simp [List.reverse_append]
    rw [hrev, takeWhile_append_stop _ _ _ (fun c hc => hnoslash2 c hc) hstop,
      List.reverse_reverse]
  · rw [hkey]
    intro heq
    have hdata : rest = bd.data ++ rest ++ ['/'] := by
      have := congrArg String.data heq
      rw [hdslash] at this
      exact this
    have : rest.length = bd.data.length + rest.length + 1 := by
      conv_lhs => rw [hdata]
      simp [List.length_append]
      omega
    omega

/-- Claim C7. Every key of a returned manifest is the base name of one
matched subject directory: the PurePath name of the enumerated path,
equal to the last path segment of the directory and never the full
enumerated path with its root prefix and trailing separator. -/
theorem claim_manifest_keys_basename (fs : FileSystem) (bids_dir : String)
    (m : List (String × List String)) (hm : build_subject_paths fs bids_dir = .ok m) :
    ∀ e ∈ m, ∃ d, d ∈ fs.dirs ∧ isSubjectDir (normDir bids_dir) d = true ∧
      e.1 = subLabel (d ++ "/") ∧ e.1 = lastSegment d ∧ e.1 ≠ d ++ "/" := by
  intro e he
  simp only [build_subject_paths] at hm
  split at hm
  · exact absurd hm (by simp)
  · injection hm with hm
    rw [← hm] at he
    rcases List.mem_map.mp he with ⟨sub, hsub, rfl⟩
    simp only [subjectDirsOf, List.mem_map] at hsub
    rcases hsub with ⟨d, hd, rfl⟩
    rw [List.mem_filter] at hd
    obtain ⟨hdmem, hdsub⟩ := hd
    obtain ⟨h1, h2, h3⟩ := subLabel_of_subjectDir (normDir bids_dir) d
      (endsSlash_normDir bids_dir) hdsub
    exact ⟨d, hdmem, hdsub, rfl, h2, h3⟩

/-- Witness for claim C7 on the demo tree: the key sub-01 is the base
name of the matched directory, not its full path. -/
theorem claim_manifest_keys_basename_witness :
    ∃ d, d ∈ demoFS.dirs ∧ isSubjectDir (normDir "/data") d = true ∧
      "sub-01" = subLabel (d ++ "/") ∧ "sub-01" = lastSegment d ∧ "sub-01" ≠ d ++ "/" :=
  claim_manifest_keys_basename demoFS "/data" demoManifest rfl
    ("sub-01", ["/data/sub-01/anat/T1.nii", "/data/sub-01/func.json",
      "/data/dataset_description.json", "/data/README"]) (by simp [demoManifest])

end Cubids
